import Mathlib

/-!
Shallow embedding of the `why` diagnostic tool's rule engine
(`src/main.rs`): the condition model, the trigger compiler, the
condition evaluator, the rule engine, the finding correlator, the
auto-fix safety gate, and the rule loading / remote-update logic.

Conventions of the embedding:
* Rust `f32` values are modelled as exact rationals (`ℚ`).
* Rust unsigned integers (`u8`/`u32`/`u64`/`usize`) are modelled as `ℕ`.
* `Option`-typed snapshot fields are `Option _`.
* String manipulation (`split`, `trim`, `strip_prefix`, `to_ascii_lowercase`,
  substring containment) is modelled by structurally recursive functions on
  the character lists underlying `String`, so every definition evaluates
  inside the kernel.
* External library behaviour that the engine merely calls into (the TOML
  decoder, the HTTP fetch, the `regex` crate) is abstracted as an explicit
  function argument, so all theorems quantify over it.
-/

namespace Why

open scoped List

/-! ## String helpers (models of the Rust std string operations used) -/

/-- Model of an external compiled regular expression (the `regex` crate's
`Regex`): all the engine ever does with it is ask whether it matches. -/
structure CompiledRegex where
  isMatch : String → Bool

/-- ASCII lower-casing, as Rust's `to_ascii_lowercase` (`Char.toLower` only
changes upper-case ASCII letters). -/
def asciiLower (s : String) : String :=
  ⟨s.data.map Char.toLower⟩

/-- Rust's `eq_ignore_ascii_case`. -/
def eqIgnoreAsciiCase (a b : String) : Bool :=
  asciiLower a == asciiLower b

/-- Contiguous-sublist check on character lists (Rust's `str::contains`
with a string pattern is substring containment). -/
def listInfix (pat : List Char) : List Char → Bool
  | [] => pat.isEmpty
  | c :: rest => pat.isPrefixOf (c :: rest) || listInfix pat rest

/-- Rust's `str::contains` with a string pattern: substring containment. -/
def strContainsSub (s pat : String) : Bool :=
  listInfix pat.data s.data

/-- Rust's `str::trim` restricted to ASCII whitespace. -/
def trimChars (cs : List Char) : List Char :=
  ((cs.dropWhile Char.isWhitespace).reverse.dropWhile Char.isWhitespace).reverse

/-- Rust's `str::trim` on strings. -/
def strTrim (s : String) : String :=
  ⟨trimChars s.data⟩

/-- Rust's `str::starts_with` with a string pattern, on the underlying
character lists. -/
def strStartsWith (s p : String) : Bool :=
  p.data.isPrefixOf s.data

/-- Rust's `str::strip_prefix`: remove `p` from the front of `s` when it is
a prefix, otherwise `none`. -/
def dropPfx (p s : String) : Option String :=
  if strStartsWith s p then some ⟨s.data.drop p.data.length⟩ else none

/-- Splitter underlying `trigger.split("&&")`: split a character list at
every (leftmost, non-overlapping) occurrence of `&&`. -/
def splitAmpAmp : List Char → List (List Char)
  | [] => [[]]
  | '&' :: '&' :: rest => [] :: splitAmpAmp rest
  | c :: rest =>
    match splitAmpAmp rest with
    | [] => [[c]]
    | seg :: segs => (c :: seg) :: segs

/-- Rust's `str::split("&&")`. -/
def splitOnAmpAmp (s : String) : List String :=
  (splitAmpAmp s.data).map (fun cs => ⟨cs⟩)

/-- Numeric value of a non-empty all-digit character list (helper for the
models of `str::parse`). -/
def digitsVal? : List Char → Option ℕ
  | [] => none
  | cs =>
    if cs.all Char.isDigit then
      some (cs.foldl (fun acc c => acc * 10 + (c.toNat - 48)) 0)
    else none

/-- Model of Rust's `str::parse::<uN>` for the unsigned payload types: an
optional `+` sign followed by one or more ASCII digits. -/
def parseNat? (s : String) : Option ℕ :=
  match s.data with
  | '+' :: rest => digitsVal? rest
  | cs => digitsVal? cs

/-- Unsigned decimal-literal part of the `f32` parser: digits with an
optional fractional part (`60`, `60.5`, `60.`, `.5`). -/
def parseRatCore (cs : List Char) : Option ℚ :=
  match cs.splitOn '.' with
  | [ip] => (digitsVal? ip).map (fun n => (n : ℚ))
  | [ip, fp] =>
    if ip.isEmpty then
      (digitsVal? fp).map (fun f => (f : ℚ) / (10 : ℚ) ^ fp.length)
    else if fp.isEmpty then
      (digitsVal? ip).map (fun n => (n : ℚ))
    else
      match digitsVal? ip, digitsVal? fp with
      | some n, some f => some ((n : ℚ) + (f : ℚ) / (10 : ℚ) ^ fp.length)
      | _, _ => none
  | _ => none

/-- Model of Rust's `str::parse::<f32>` restricted to plain decimal
literals with an optional sign (the shapes rule files use); the value is
kept exact in `ℚ`. -/
def parseRat? (s : String) : Option ℚ :=
  match s.data with
  | '+' :: rest => parseRatCore rest
  | '-' :: rest => (parseRatCore rest).map Neg.neg
  | cs => parseRatCore cs

/-! ## Data model (`src/main.rs` structs) -/

/-- Embedding of `GpuDetails` (floats as `ℚ`). -/
structure GpuDetails where
  vendor : String
  model : Option String
  driver : Option String
  temperature : Option ℚ
  utilization : Option ℚ
  memory_total_mb : Option ℚ
  memory_used_mb : Option ℚ
  fan_speed_percent : Option ℚ

/-- The constant `FP_PRECISION_THRESHOLD: f32 = 0.001`. -/
def FP_PRECISION_THRESHOLD : ℚ := 1 / 1000

/-- Embedding of `GpuDetails::memory_utilization`: `used/total*100` when both memory
fields are present and the total exceeds the precision threshold. -/
def GpuDetails.memory_utilization (g : GpuDetails) : Option ℚ :=
  match g.memory_used_mb, g.memory_total_mb with
  | some used, some total =>
    if FP_PRECISION_THRESHOLD < total then some (used / total * 100) else none
  | _, _ => none

/-- Embedding of `Metrics` (the metrics snapshot). -/
structure Metrics where
  cpu_usage : ℚ
  mem_usage : ℚ
  total_ram_mb : ℕ
  disk_full_percent : ℚ
  filesystem : Option String
  snap_loops : Option ℕ
  flatpak_unused : Option ℕ
  battery_drain_w : Option ℚ
  wifi_channel_count : Option ℕ
  wifi_signal_dbm : Option ℚ
  fan_speed_rpm : Option ℚ
  temperature_c : Option ℚ
  wayland_vs_x11 : Option String
  docker_dangling : Option ℕ
  process_names : List String
  process_count : ℕ
  pipewire_latency_ms : Option ℚ
  firefox_soft_render : Option Bool
  zfs_arc_full_percent : Option ℚ
  luks_device_count : Option ℕ
  gpu : Option GpuDetails
  prime_offload_enabled : Bool
  gamescope_running : Bool
  steam_running : Bool
  proton_failure_detected : Bool
  vulkan_loader_missing : Bool

/-- Embedding of `Rule` as deserialized from a rule source (`severity` is a `u8` in the
source; its value range is 0–255). -/
structure Rule where
  name : String
  trigger : String
  message : String
  solution : String
  severity : ℕ
  auto_fix : Option String
deriving DecidableEq

/-- Embedding of `RulesFile`: the decoded shape of a TOML rule source. -/
structure RulesFile where
  rule : List Rule
deriving DecidableEq

/-- Embedding of `Finding`. -/
structure Finding where
  severity : String
  severity_value : ℕ
  message : String
  solution : String
  auto_fix : Option String
  rule_name : String
deriving DecidableEq

/-- The `Condition` enum. -/
inductive Condition where
  | CpuGreater (v : ℚ)
  | MemGreater (v : ℚ)
  | TotalRamLess (v : ℕ)
  | ProcessContains (name : String)
  | ProcessCountGreater (v : ℕ)
  | LogContains (re : CompiledRegex)
  | DiskFullGreater (v : ℚ)
  | SnapLoopsGreater (v : ℕ)
  | FlatpakUnusedGreater (v : ℕ)
  | BatteryDrainGreater (v : ℚ)
  | WifiChannelCountGreater (v : ℕ)
  | WifiSignalLess (v : ℚ)
  | FanSpeedGreater (v : ℚ)
  | TemperatureGreater (v : ℚ)
  | FilesystemEquals (fs : String)
  | WaylandVsX11 (target : String)
  | DockerDanglingGreater (v : ℕ)
  | PipewireLatencyGreater (v : ℚ)
  | FirefoxSoftRender (expected : Bool)
  | ZfsArcPercentGreater (v : ℚ)
  | LuksDevicesGreater (v : ℕ)
  | GpuVendorEquals (target : String)
  | GpuTempGreater (v : ℚ)
  | GpuTempLess (v : ℚ)
  | GpuUtilGreater (v : ℚ)
  | GpuMemUtilGreater (v : ℚ)
  | PrimeOffloadEquals (expected : String)
  | GamescopeRunning (expected : Bool)
  | SteamRunning (expected : Bool)
  | ProtonFailures (expected : Bool)
  | VulkanLoaderMissing (expected : Bool)

/-! ## AutoFixGate (`is_safe_auto_fix`) -/

/-- The denylisted shell metacharacters (`DANGEROUS_CHARS`); `Char.ofNat 96`
is the backquote, `Char.ofNat 123`/`125` are the braces. -/
def DANGEROUS_CHARS : List Char :=
  [';', '|', '&', '$', Char.ofNat 96, '>', '<', '\n', '\r', '(', ')',
   Char.ofNat 123, Char.ofNat 125]

/-- The fixed allowlist of auto-fix command prefixes. -/
def AUTO_FIX_WHITELIST : List String :=
  ["bluetoothctl power off", "bluetoothctl power on", "snap remove",
   "flatpak uninstall", "balooctl", "systemctl --user", "docker image prune"]

/-- Embedding of `is_safe_auto_fix`: reject on any denylisted metacharacter, then accept
exactly the allowlist entries and commands extending one with a space. -/
def is_safe_auto_fix (cmd : String) : Bool :=
  if cmd.data.any (fun c => DANGEROUS_CHARS.contains c) then false
  else AUTO_FIX_WHITELIST.any (fun allowed =>
    cmd == allowed || strStartsWith cmd (allowed ++ " "))

/-! ## TriggerCompiler (`parse_trigger` / `parse_condition`) -/

/-- Embedding of `parse_bool_token`: `{true,1,yes}` / `{false,0,no}`, case-insensitive. -/
def parse_bool_token (value : String) : Option Bool :=
  match asciiLower (strTrim value) with
  | "true" => some true
  | "1" => some true
  | "yes" => some true
  | "false" => some false
  | "0" => some false
  | "no" => some false
  | _ => none

/-- Embedding of `parse_condition`: match the segment against the fixed prefixes in
source order; `regexNew` models `Regex::new(..).ok()` from the external
regex crate. -/
def parse_condition (regexNew : String → Option CompiledRegex)
    (token : String) : Option Condition :=
  if token.data.isEmpty then none
  else if let some v := dropPfx "cpu>" token then
    (parseRat? (strTrim v)).map .CpuGreater
  else if let some v := dropPfx "mem>" token then
    (parseRat? (strTrim v)).map .MemGreater
  else if let some v := dropPfx "total_ram<" token then
    (parseNat? (strTrim v)).map .TotalRamLess
  else if let some v := dropPfx "process=" token then
    some (.ProcessContains (strTrim v))
  else if let some v := dropPfx "process_count>" token then
    (parseNat? (strTrim v)).map .ProcessCountGreater
  else if let some v := dropPfx "log_contains=" token then
    (regexNew (strTrim v)).map .LogContains
  else if let some v := dropPfx "disk_full>" token then
    (parseRat? (strTrim v)).map .DiskFullGreater
  else if let some v := dropPfx "snap loops>" token then
    (parseNat? (strTrim v)).map .SnapLoopsGreater
  else if let some v := dropPfx "flatpak_unused>" token then
    (parseNat? (strTrim v)).map .FlatpakUnusedGreater
  else if let some v := dropPfx "battery_drain>" token then
    (parseRat? (strTrim v)).map .BatteryDrainGreater
  else if let some v := dropPfx "wifi_channel_count>" token then
    (parseNat? (strTrim v)).map .WifiChannelCountGreater
  else if let some v := dropPfx "wifi_signal<" token then
    (parseRat? (strTrim v)).map .WifiSignalLess
  else if let some v := dropPfx "fan_speed>" token then
    (parseRat? (strTrim v)).map .FanSpeedGreater
  else if let some v := dropPfx "temp>" token then
    (parseRat? (strTrim v)).map .TemperatureGreater
  else if let some v := dropPfx "filesystem=" token then
    some (.FilesystemEquals (strTrim v))
  else if let some v := dropPfx "wayland_vs_x11=" token then
    some (.WaylandVsX11 (strTrim v))
  else if let some v := dropPfx "docker_dangling>" token then
    (parseNat? (strTrim v)).map .DockerDanglingGreater
  else if let some v := dropPfx "pipewire_latency>" token then
    (parseRat? (strTrim v)).map .PipewireLatencyGreater
  else if let some v := dropPfx "firefox_soft_render=" token then
    (parse_bool_token v).map .FirefoxSoftRender
  else if let some v := dropPfx "zfs_arc_full>" token then
    (parseRat? (strTrim v)).map .ZfsArcPercentGreater
  else if let some v := dropPfx "luks_devices>" token then
    (parseNat? (strTrim v)).map .LuksDevicesGreater
  else if let some v := dropPfx "gpu_vendor=" token then
    some (.GpuVendorEquals (asciiLower (strTrim v)))
  else if let some v := dropPfx "gpu_temp>" token then
    (parseRat? (strTrim v)).map .GpuTempGreater
  else if let some v := dropPfx "gpu_temp<" token then
    (parseRat? (strTrim v)).map .GpuTempLess
  else if let some v := dropPfx "gpu_util>" token then
    (parseRat? (strTrim v)).map .GpuUtilGreater
  else if let some v := dropPfx "gpu_mem_util>" token then
    (parseRat? (strTrim v)).map .GpuMemUtilGreater
  else if let some v := dropPfx "prime_offload=" token then
    some (.PrimeOffloadEquals (asciiLower (strTrim v)))
  else if let some v := dropPfx "gamescope_running=" token then
    (parse_bool_token v).map .GamescopeRunning
  else if let some v := dropPfx "steam_running=" token then
    (parse_bool_token v).map .SteamRunning
  else if let some v := dropPfx "proton_failures=" token then
    (parse_bool_token v).map .ProtonFailures
  else if let some v := dropPfx "vulkan_loader_missing=" token then
    (parse_bool_token v).map .VulkanLoaderMissing
  else none

/-- Embedding of `parse_trigger`: split on `&&`, trim each segment, keep the segments
that parse. -/
def parse_trigger (regexNew : String → Option CompiledRegex)
    (trigger : String) : List Condition :=
  (splitOnAmpAmp trigger).filterMap
    (fun token => parse_condition regexNew (strTrim token))

/-! ## ConditionEvaluator (`condition_holds`) -/

/-- Embedding of `condition_holds`: decide one condition against a snapshot and the
optional recent-log text. -/
def condition_holds (c : Condition) (metrics : Metrics)
    (logs : Option String) : Bool :=
  match c with
  | .CpuGreater v => decide (v < metrics.cpu_usage)
  | .MemGreater v => decide (v < metrics.mem_usage)
  | .TotalRamLess v => decide (metrics.total_ram_mb < v)
  | .ProcessContains name =>
    let needle := asciiLower name
    metrics.process_names.any (fun pn => strContainsSub pn needle)
  | .ProcessCountGreater v => decide (v < metrics.process_count)
  | .LogContains re => (logs.map (fun log => re.isMatch log)).getD false
  | .DiskFullGreater v => decide (v < metrics.disk_full_percent)
  | .SnapLoopsGreater v =>
    (metrics.snap_loops.map (fun loops => decide (v < loops))).getD false
  | .FlatpakUnusedGreater v =>
    (metrics.flatpak_unused.map (fun unused => decide (v < unused))).getD false
  | .BatteryDrainGreater v =>
    (metrics.battery_drain_w.map (fun drain => decide (v < drain))).getD false
  | .WifiChannelCountGreater v =>
    (metrics.wifi_channel_count.map (fun count => decide (v < count))).getD false
  | .WifiSignalLess v =>
    (metrics.wifi_signal_dbm.map (fun signal => decide (signal < v))).getD false
  | .FanSpeedGreater v =>
    (metrics.fan_speed_rpm.map (fun speed => decide (v < speed))).getD false
  | .TemperatureGreater v =>
    (metrics.temperature_c.map (fun temp => decide (v < temp))).getD false
  | .FilesystemEquals fs =>
    (metrics.filesystem.map (fun filesystem => filesystem == fs)).getD false
  | .WaylandVsX11 target =>
    (metrics.wayland_vs_x11.map (fun session => session == target)).getD false
  | .DockerDanglingGreater v =>
    (metrics.docker_dangling.map (fun count => decide (v < count))).getD false
  | .PipewireLatencyGreater v =>
    (metrics.pipewire_latency_ms.map (fun latency => decide (v < latency))).getD false
  | .FirefoxSoftRender expected =>
    (metrics.firefox_soft_render.map (fun state => state == expected)).getD false
  | .ZfsArcPercentGreater v =>
    (metrics.zfs_arc_full_percent.map (fun arc => decide (v < arc))).getD false
  | .LuksDevicesGreater v =>
    (metrics.luks_device_count.map (fun count => decide (v < count))).getD false
  | .GpuVendorEquals target =>
    (metrics.gpu.map (fun gpu => eqIgnoreAsciiCase gpu.vendor target)).getD false
  | .GpuTempGreater v =>
    ((metrics.gpu.bind GpuDetails.temperature).map
      (fun temp => decide (v < temp))).getD false
  | .GpuTempLess v =>
    ((metrics.gpu.bind GpuDetails.temperature).map
      (fun temp => decide (temp < v))).getD false
  | .GpuUtilGreater v =>
    ((metrics.gpu.bind GpuDetails.utilization).map
      (fun util => decide (v < util))).getD false
  | .GpuMemUtilGreater v =>
    ((metrics.gpu.bind GpuDetails.memory_utilization).map
      (fun util => decide (v < util))).getD false
  | .PrimeOffloadEquals expected =>
    let actual := if metrics.prime_offload_enabled then "enabled" else "disabled"
    eqIgnoreAsciiCase actual expected
  | .GamescopeRunning expected => metrics.gamescope_running == expected
  | .SteamRunning expected => metrics.steam_running == expected
  | .ProtonFailures expected => metrics.proton_failure_detected == expected
  | .VulkanLoaderMissing expected => metrics.vulkan_loader_missing == expected

/-! ## RuleEngine (`evaluate_rules`, `severity_emoji`) -/

/-- Embedding of `severity_emoji`: the tier glyph (`0..=4`, `5..=7`, `_` in the source
match). -/
def severity_emoji (severity : ℕ) : String :=
  if severity ≤ 4 then "ℹ️" else if severity ≤ 7 then "⚠️" else "🔥"

/-- The `Finding` built from a rule whose conditions all hold
(`format!("{} {}", severity_emoji(..), severity)` for the label). -/
def findingOf (rule : Rule) : Finding where
  severity := severity_emoji rule.severity ++ " " ++ toString rule.severity
  severity_value := rule.severity
  message := rule.message
  solution := rule.solution
  auto_fix := rule.auto_fix
  rule_name := rule.name

/-- The conjunction of a compiled rule's conditions (the labelled
`continue 'rule_loop` short-circuit). -/
def ruleHolds (metrics : Metrics) (logs : Option String)
    (conds : List Condition) : Bool :=
  conds.all (fun c => condition_holds c metrics logs)

/-- The comparator of `sort_by(|a, b| b.severity_value.cmp(&a.severity_value))`
read as a `≤`-style relation: `a` may precede `b` when its severity is at
least `b`'s. -/
def sevDescLE (a b : Finding) : Bool :=
  decide (b.severity_value ≤ a.severity_value)

/-- Embedding of `evaluate_rules`: one finding per rule whose conditions all hold, then
a stable sort by descending severity (Rust's `sort_by` is stable; modelled
with `List.mergeSort`). The internally cached log text is an explicit
argument. -/
def evaluate_rules (metrics : Metrics)
    (parsed_rules : List (List Condition × Rule))
    (logs : Option String) : List Finding :=
  (((parsed_rules.filter (fun pr => ruleHolds metrics logs pr.1)).map
    (fun pr => findingOf pr.2)).mergeSort sevDescLE)

/-! ## Correlator (`correlate_findings`) -/

/-- The `HashSet` + `retain` pass: keep a finding only when its rule name
was not seen before (`seen.insert(..)` returning `true`). -/
def retainFirstSeen (seen : List String) : List Finding → List Finding
  | [] => []
  | f :: rest =>
    if f.rule_name ∈ seen then retainFirstSeen seen rest
    else f :: retainFirstSeen (f.rule_name :: seen) rest

/-- Embedding of `correlate_findings`: deduplicate by rule name (first seen wins), then
stable-sort by descending severity. -/
def correlate_findings (findings : List Finding) : List Finding :=
  (retainFirstSeen [] findings).mergeSort sevDescLE

/-! ## Rule loading and the remote update (`load_rules`,
`update_rules_from_remote`) -/

/-- Embedding of `load_rules`, with the file read and the external TOML decoder made
explicit: `data` is the contents of `rules.toml` (`none` = read failure)
and `decodeToml` models `toml::from_str` (`none` = parse failure). -/
def load_rules (decodeToml : String → Option RulesFile)
    (data : Option String) : Except String (List Rule) :=
  match data with
  | none => .error "Unable to read rules.toml"
  | some d =>
    match decodeToml d with
    | none => .error "rules.toml is invalid - check syntax"
    | some parsed =>
      if parsed.rule.isEmpty then .error "No rules found"
      else .ok parsed.rule

/-- Does this rule carry an auto-fix command the gate rejects? (the body of
the validation loop of `update_rules_from_remote`). -/
def ruleUnsafe (r : Rule) : Bool :=
  (r.auto_fix.map (fun cmd => !is_safe_auto_fix cmd)).getD false

/-- Embedding of `update_rules_from_remote` after the HTTP fetch: `fetched` is the
response body (`none` = network or non-success status error), `decodeToml`
models the external TOML decoder, and `stored` is the current contents of
the rules file. Returns the operation's result together with the new
contents of the rules file (`fs::write` happens only in the `ok` branch). -/
def update_rules_from_remote (decodeToml : String → Option RulesFile)
    (fetched : Option String) (stored : Option String) :
    Except String Unit × Option String :=
  match fetched with
  | none => (.error "Failed to download remote rules", stored)
  | some contents =>
    match decodeToml contents with
    | none => (.error "Remote rules file is invalid TOML", stored)
    | some parsed =>
      if parsed.rule.isEmpty then
        (.error "Remote rules file contains no rules", stored)
      else
        match parsed.rule.find? ruleUnsafe with
        | some r =>
          (.error ("Remote rules contain unsafe auto_fix command in rule " ++
            r.name), stored)
        | none => (.ok (), some contents)

/-! ## Concrete inputs used by counterexamples and witnesses -/

/-- A rule whose auto-fix the gate accepts, used to exercise the success
path of the remote update. -/
def safePayloadRule : Rule where
  name := "bt_off"
  trigger := "cpu>80"
  message := "m"
  solution := "s"
  severity := 5
  auto_fix := some "snap remove old-package"

/-- A syntactically valid rule whose severity (15) lies outside `[1,10]`
but inside the `u8` range the deserializer enforces. -/
def badSeverityRule : Rule where
  name := "bad"
  trigger := "cpu>99"
  message := "m"
  solution := "s"
  severity := 15
  auto_fix := none

/-- The domain of the fails-closed claim: does the condition read a
snapshot field (or the recent-log text, or a GPU-derived value) that is
absent? Variants over always-present fields are excluded. -/
def readsAbsentData (c : Condition) (m : Metrics) (logs : Option String) : Bool :=
  match c with
  | .SnapLoopsGreater _ => m.snap_loops.isNone
  | .FlatpakUnusedGreater _ => m.flatpak_unused.isNone
  | .BatteryDrainGreater _ => m.battery_drain_w.isNone
  | .WifiChannelCountGreater _ => m.wifi_channel_count.isNone
  | .WifiSignalLess _ => m.wifi_signal_dbm.isNone
  | .FanSpeedGreater _ => m.fan_speed_rpm.isNone
  | .TemperatureGreater _ => m.temperature_c.isNone
  | .FilesystemEquals _ => m.filesystem.isNone
  | .WaylandVsX11 _ => m.wayland_vs_x11.isNone
  | .DockerDanglingGreater _ => m.docker_dangling.isNone
  | .PipewireLatencyGreater _ => m.pipewire_latency_ms.isNone
  | .FirefoxSoftRender _ => m.firefox_soft_render.isNone
  | .ZfsArcPercentGreater _ => m.zfs_arc_full_percent.isNone
  | .LuksDevicesGreater _ => m.luks_device_count.isNone
  | .GpuVendorEquals _ => m.gpu.isNone
  | .GpuTempGreater _ => (m.gpu.bind GpuDetails.temperature).isNone
  | .GpuTempLess _ => (m.gpu.bind GpuDetails.temperature).isNone
  | .GpuUtilGreater _ => (m.gpu.bind GpuDetails.utilization).isNone
  | .GpuMemUtilGreater _ =>
    (m.gpu.bind GpuDetails.memory_used_mb).isNone ||
      (m.gpu.bind GpuDetails.memory_total_mb).isNone
  | .LogContains _ => logs.isNone
  | _ => false

/-- A snapshot in which every optional field is unobserved. -/
def mAbsent : Metrics where
  cpu_usage := 0
  mem_usage := 0
  total_ram_mb := 0
  disk_full_percent := 0
  filesystem := none
  snap_loops := none
  flatpak_unused := none
  battery_drain_w := none
  wifi_channel_count := none
  wifi_signal_dbm := none
  fan_speed_rpm := none
  temperature_c := none
  wayland_vs_x11 := none
  docker_dangling := none
  process_names := []
  process_count := 0
  pipewire_latency_ms := none
  firefox_soft_render := none
  zfs_arc_full_percent := none
  luks_device_count := none
  gpu := none
  prime_offload_enabled := false
  gamescope_running := false
  steam_running := false
  proton_failure_detected := false
  vulkan_loader_missing := false

/-- A GPU record with total=10240 MB and used=5120 MB. -/
def gFull : GpuDetails where
  vendor := "nvidia"
  model := none
  driver := none
  temperature := none
  utilization := none
  memory_total_mb := some 10240
  memory_used_mb := some 5120
  fan_speed_percent := none

/-- A snapshot carrying `gFull` as its GPU record. -/
def mGpu : Metrics :=
  { mAbsent with gpu := some gFull }

/-- A snapshot with one running process. -/
def mProc : Metrics :=
  { mAbsent with process_names := ["systemd"], process_count := 1 }

/-! ## Helper lemmas -/

theorem strStartsWith_iff (s p : String) :
    strStartsWith s p = true ↔ ∃ r : String, s = p ++ r := by
  rw [strStartsWith, List.isPrefixOf_iff_prefix]
  constructor
  · rintro ⟨t, ht⟩
    refine ⟨⟨t⟩, ?_⟩
    cases s with
    | mk d => cases p with
      | mk pd =>
        simp only [String.data] at ht
        simpa [String.ext_iff] using ht.symm
  · rintro ⟨r, rfl⟩
    exact ⟨r.data, rfl⟩

theorem filterMap_length_eq_filter_length {α β : Type} (f : α → Option β)
    (p : α → Bool) (l : List α)
    (hp : ∀ a ∈ l, (p a = true → (f a).isSome = true) ∧
      (p a = false → f a = none)) :
    (l.filterMap f).length = (l.filter p).length := by
  induction l with
  | nil => rfl
  | cons a l ih =>
    have ha := hp a (List.mem_cons_self a l)
    have hl := fun x hx => hp x (List.mem_cons_of_mem a hx)
    cases hpa : p a with
    | true =>
      obtain ⟨b, hb⟩ := Option.isSome_iff_exists.mp (ha.1 hpa)
      simp [List.filterMap_cons, List.filter_cons, hpa, hb, ih hl]
    | false =>
      simp [List.filterMap_cons, List.filter_cons, hpa, ha.2 hpa, ih hl]

theorem sevDescLE_trans : ∀ a b c : Finding, sevDescLE a b = true →
    sevDescLE b c = true → sevDescLE a c = true := by
  intro a b c hab hbc
  simp only [sevDescLE, decide_eq_true_eq] at hab hbc ⊢
  omega

theorem sevDescLE_total : ∀ a b : Finding,
    (sevDescLE a b || sevDescLE b a) = true := by
  intro a b
  simp only [sevDescLE]
  rcases Nat.le_total b.severity_value a.severity_value with h | h <;> simp [h]

theorem mergeSort_sevDesc_sorted (l : List Finding) :
    (l.mergeSort sevDescLE).Pairwise
      (fun a b => b.severity_value ≤ a.severity_value) := by
  have h := List.sorted_mergeSort sevDescLE_trans sevDescLE_total l
  exact h.imp (fun hab => by simpa [sevDescLE] using hab)

theorem mergeSort_sevDesc_filter_sev (l : List Finding) (s : ℕ) :
    (l.mergeSort sevDescLE).filter (fun f => f.severity_value == s) =
      l.filter (fun f => f.severity_value == s) := by
  have hsub : l.filter (fun f => f.severity_value == s) <+ l.mergeSort sevDescLE := by
    refine List.sublist_mergeSort sevDescLE_trans sevDescLE_total ?_
      (List.filter_sublist l)
    refine List.pairwise_of_forall_mem_list ?_
    intro a ha b hb
    have ha' := (List.mem_filter.mp ha).2
    have hb' := (List.mem_filter.mp hb).2
    simp only [beq_iff_eq] at ha' hb'
    simp [sevDescLE, ha', hb']
  have hsub2 : l.filter (fun f => f.severity_value == s) <+
      (l.mergeSort sevDescLE).filter (fun f => f.severity_value == s) := by
    have h2 := hsub.filter (fun f => f.severity_value == s)
    simpa [List.filter_filter] using h2
  have hperm : (l.mergeSort sevDescLE).filter (fun f => f.severity_value == s) ~
      l.filter (fun f => f.severity_value == s) :=
    (List.mergeSort_perm l sevDescLE).filter _
  exact (hsub2.eq_of_length hperm.length_eq.symm).symm

theorem perm_eq_of_length_le_one {α : Type} {l₁ l₂ : List α}
    (p : l₁ ~ l₂) (h : l₂.length ≤ 1) : l₁ = l₂ := by
  match l₂, h with
  | [], _ => exact p.eq_nil
  | [a], _ => exact List.perm_singleton.mp p

theorem retainFirstSeen_filter (l : List Finding) (seen : List String)
    (name : String) :
    (retainFirstSeen seen l).filter (fun f => f.rule_name == name) =
      if name ∈ seen then []
      else (l.filter (fun f => f.rule_name == name)).take 1 := by
  induction l generalizing seen with
  | nil => simp [retainFirstSeen]
  | cons f rest ih =>
    rw [retainFirstSeen]
    by_cases hf : f.rule_name ∈ seen
    · rw [if_pos hf, ih seen]
      by_cases hname : name ∈ seen
      · simp [hname]
      · have hne : f.rule_name ≠ name := by
          rintro rfl
          exact hname hf
        simp [hname, List.filter_cons, hne]
    · rw [if_neg hf]
      by_cases hname : f.rule_name = name
      · subst hname
        simp [List.filter_cons, ih (f.rule_name :: seen), hf]
      · have hne : ¬((f.rule_name == name) = true) := by simpa using hname
        simp [List.filter_cons, hne, List.mem_cons, Ne.symm hname, ih]

theorem retainFirstSeen_names_fresh (l : List Finding) (seen : List String) :
    ((retainFirstSeen seen l).map Finding.rule_name).Nodup ∧
      ∀ n ∈ (retainFirstSeen seen l).map Finding.rule_name, n ∉ seen := by
  induction l generalizing seen with
  | nil => simp [retainFirstSeen]
  | cons f rest ih =>
    rw [retainFirstSeen]
    by_cases hf : f.rule_name ∈ seen
    · rw [if_pos hf]
      exact ih seen
    · rw [if_neg hf]
      obtain ⟨hnodup, hfresh⟩ := ih (f.rule_name :: seen)
      refine ⟨?_, ?_⟩
      · rw [List.map_cons, List.nodup_cons]
        exact ⟨fun h => (hfresh _ h) (List.mem_cons_self _ _), hnodup⟩
      · intro n hn
        rw [List.map_cons, List.mem_cons] at hn
        rcases hn with rfl | hn
        · exact hf
        · exact fun h => (hfresh n hn) (List.mem_cons_of_mem _ h)

theorem retainFirstSeen_of_nodup (l : List Finding) (seen : List String)
    (hnodup : (l.map Finding.rule_name).Nodup)
    (hdisj : ∀ f ∈ l, f.rule_name ∉ seen) :
    retainFirstSeen seen l = l := by
  induction l generalizing seen with
  | nil => rfl
  | cons f rest ih =>
    rw [List.map_cons, List.nodup_cons] at hnodup
    rw [retainFirstSeen, if_neg (hdisj f (List.mem_cons_self _ _)),
      ih (f.rule_name :: seen) hnodup.2]
    intro g hg
    rw [List.mem_cons]
    rintro (h | h)
    · exact hnodup.1 (h ▸ List.mem_map_of_mem Finding.rule_name hg)
    · exact hdisj g (List.mem_cons_of_mem _ hg) h

theorem strContainsSub_empty_pat (s : String) : strContainsSub s "" = true := by
  rw [strContainsSub]
  cases hd : s.data with
  | nil => rfl
  | cons c cs => rfl

/-! ## C1 -/

/-- C1: `is_safe_auto_fix` accepts a command iff it contains no denylisted
shell metacharacter and is an exact allowlist entry or extends one with a
space; `"snap remove old-package"` is accepted and `"snapfoo"` rejected. -/
theorem auto_fix_gate_characterization :
    (∀ cmd : String, is_safe_auto_fix cmd = true ↔
      ((∀ c ∈ cmd.data, c ∉ DANGEROUS_CHARS) ∧
        ∃ allowed ∈ AUTO_FIX_WHITELIST,
          cmd = allowed ∨ ∃ rest : String, cmd = allowed ++ " " ++ rest)) ∧
    is_safe_auto_fix "snap remove old-package" = true ∧
    is_safe_auto_fix "snapfoo" = false := by
  refine ⟨fun cmd => ?_, by decide, by decide⟩
  rw [is_safe_auto_fix]
  rcases h : cmd.data.any (fun c => DANGEROUS_CHARS.contains c) with _ | _
  · rw [if_neg (by decide)]
    rw [List.any_eq_false] at h
    simp only [List.any_eq_true, Bool.or_eq_true, beq_iff_eq, strStartsWith_iff]
    constructor
    · rintro ⟨allowed, hmem, hcase⟩
      refine ⟨fun c hc => by simpa using h c hc, allowed, hmem, ?_⟩
      rcases hcase with rfl | ⟨r, rfl⟩
      · exact Or.inl rfl
      · exact Or.inr ⟨r, by rw [String.append_assoc]⟩
    · rintro ⟨-, allowed, hmem, hcase⟩
      refine ⟨allowed, hmem, ?_⟩
      rcases hcase with rfl | ⟨r, rfl⟩
      · exact Or.inl rfl
      · exact Or.inr ⟨r, by rw [String.append_assoc]⟩
  · rw [if_pos (by decide)]
    rw [List.any_eq_true] at h
    obtain ⟨c, hc, hdanger⟩ := h
    constructor
    · intro hf
      exact absurd hf (by decide)
    · rintro ⟨hno, -⟩
      exact absurd (by simpa using hdanger) (by simpa using hno c hc)

theorem auto_fix_gate_characterization_witness :
    is_safe_auto_fix "snapfoo" = false :=
  auto_fix_gate_characterization.2.2

/-! ## C2 -/

/-- C2: the remote rule update is atomic. If the payload is unusable
(fetch failed, malformed TOML, empty rule list, or some rule carries an
auto-fix command the gate rejects) the operation returns an error and the
stored rules file is unchanged; when every rule passes validation the file
is overwritten with the fetched contents. -/
theorem remote_update_atomicity
    (decodeToml : String → Option RulesFile) (fetched stored : Option String) :
    (¬ (∃ contents parsed, fetched = some contents ∧
          decodeToml contents = some parsed ∧ parsed.rule ≠ [] ∧
          ∀ r ∈ parsed.rule, ∀ cmd, r.auto_fix = some cmd →
            is_safe_auto_fix cmd = true) →
        ∃ e, update_rules_from_remote decodeToml fetched stored =
          (Except.error e, stored)) ∧
    (∀ contents parsed, fetched = some contents →
        decodeToml contents = some parsed → parsed.rule ≠ [] →
        (∀ r ∈ parsed.rule, ∀ cmd, r.auto_fix = some cmd →
          is_safe_auto_fix cmd = true) →
        update_rules_from_remote decodeToml fetched stored =
          (Except.ok (), some contents)) := by
  have safe_of_find_none : ∀ (l : List Rule), l.find? ruleUnsafe = none →
      ∀ r ∈ l, ∀ cmd, r.auto_fix = some cmd → is_safe_auto_fix cmd = true := by
    intro l hfind r hr cmd hcmd
    rw [List.find?_eq_none] at hfind
    have := hfind r hr
    rw [ruleUnsafe, hcmd] at this
    simpa using this
  have unsafe_of_find_some : ∀ (l : List Rule) (r : Rule),
      l.find? ruleUnsafe = some r →
      ∃ r' ∈ l, ∃ cmd, r'.auto_fix = some cmd ∧ is_safe_auto_fix cmd = false := by
    intro l r hfind
    refine ⟨r, List.mem_of_find?_eq_some hfind, ?_⟩
    have := List.find?_some hfind
    rw [ruleUnsafe] at this
    cases hfix : r.auto_fix with
    | none => rw [hfix] at this; simp at this
    | some cmd =>
      rw [hfix] at this
      simp only [Option.map_some', Option.getD_some, Bool.not_eq_true'] at this
      exact ⟨cmd, rfl, this⟩
  cases fetched with
  | none =>
    refine ⟨fun _ => ⟨"Failed to download remote rules", rfl⟩, ?_⟩
    intro contents parsed h
    exact absurd h (by simp)
  | some contents =>
    cases hdec : decodeToml contents with
    | none =>
      constructor
      · intro _
        exact ⟨"Remote rules file is invalid TOML",
          by simp [update_rules_from_remote, hdec]⟩
      · intro c p hc hp
        rw [Option.some_inj] at hc
        subst hc
        rw [hdec] at hp
        exact absurd hp (by simp)
    | some parsed =>
      cases hemp : parsed.rule.isEmpty with
      | true =>
        constructor
        · intro _
          exact ⟨"Remote rules file contains no rules",
            by simp [update_rules_from_remote, hdec, hemp]⟩
        · intro c p hc hp hne
          rw [Option.some_inj] at hc
          subst hc
          rw [hdec, Option.some_inj] at hp
          subst hp
          exact absurd (List.isEmpty_iff.mp hemp) hne
      | false =>
        cases hfind : parsed.rule.find? ruleUnsafe with
        | some r =>
          constructor
          · intro _
            exact ⟨"Remote rules contain unsafe auto_fix command in rule " ++ r.name,
              by simp [update_rules_from_remote, hdec, hemp, hfind]⟩
          · intro c p hc hp hne hsafe
            rw [Option.some_inj] at hc
            subst hc
            rw [hdec, Option.some_inj] at hp
            subst hp
            obtain ⟨r', hr', cmd, hcmd, hbad⟩ := unsafe_of_find_some _ _ hfind
            have hgood := hsafe r' hr' cmd hcmd
            rw [hgood] at hbad
            exact absurd hbad (by simp)
        | none =>
          constructor
          · intro hn
            exact absurd ⟨contents, parsed, rfl, hdec,
              fun h => by simp [h] at hemp,
              safe_of_find_none _ hfind⟩ hn
          · intro c p hc hp hne hsafe
            rw [Option.some_inj] at hc
            subst hc
            simp [update_rules_from_remote, hdec, hemp, hfind]

theorem remote_update_atomicity_witness :
    update_rules_from_remote (fun _ => some ⟨[safePayloadRule]⟩)
      (some "payload") none = (Except.ok (), some "payload") := by
  refine (remote_update_atomicity (fun _ => some ⟨[safePayloadRule]⟩)
    (some "payload") none).2 "payload" ⟨[safePayloadRule]⟩ rfl rfl (by simp) ?_
  intro r hr cmd hcmd
  rw [List.mem_singleton] at hr
  subst hr
  rw [show safePayloadRule.auto_fix = some "snap remove old-package" from rfl,
    Option.some_inj] at hcmd
  subst hcmd
  decide

/-! ## C3 (corrected: the loader does not validate severity) -/

/-- C3 counterexample: `load_rules` accepts a rule source containing a
rule with severity 15, so severity is not validated at load time. -/
theorem load_rules_severity_counterexample :
    load_rules (fun _ => some ⟨[badSeverityRule]⟩) (some "rules-toml-text") =
      Except.ok [badSeverityRule] ∧
    badSeverityRule.severity = 15 ∧
    ¬ (1 ≤ badSeverityRule.severity ∧ badSeverityRule.severity ≤ 10) :=
  ⟨rfl, rfl, by decide⟩

/-- C3 amended: `load_rules` validates only that the source reads, decodes
and contains at least one rule; the decoded rules (whatever their
severities, constrained only to the `u8` range by deserialization) are
returned verbatim and passed through to evaluation. -/
theorem load_rules_no_severity_validation
    (decodeToml : String → Option RulesFile) (data : Option String) :
    (∀ d parsed, data = some d → decodeToml d = some parsed →
      parsed.rule ≠ [] → load_rules decodeToml data = Except.ok parsed.rule) ∧
    (∀ rules, load_rules decodeToml data = Except.ok rules →
      ∃ d parsed, data = some d ∧ decodeToml d = some parsed ∧
        parsed.rule = rules ∧ rules ≠ []) := by
  constructor
  · intro d parsed hd hp hne
    subst hd
    simp [load_rules, hp, List.isEmpty_iff, hne]
  · intro rules hok
    cases data with
    | none => simp [load_rules] at hok
    | some d =>
      cases hp : decodeToml d with
      | none => simp [load_rules, hp] at hok
      | some parsed =>
        cases hemp : parsed.rule.isEmpty with
        | true => simp [load_rules, hp, hemp] at hok
        | false =>
          simp only [load_rules, hp] at hok
          rw [if_neg (by simp [hemp]), Except.ok.injEq] at hok
          subst hok
          exact ⟨d, parsed, rfl, hp, rfl, fun h => by simp [h] at hemp⟩

theorem load_rules_no_severity_validation_witness :
    load_rules (fun _ => some ⟨[badSeverityRule]⟩) (some "rules-toml-text") =
      Except.ok [badSeverityRule] :=
  (load_rules_no_severity_validation (fun _ => some ⟨[badSeverityRule]⟩)
    (some "rules-toml-text")).1 "rules-toml-text" ⟨[badSeverityRule]⟩ rfl rfl
    (by simp)

/-! ## C4 -/

/-- C4: evaluation fails closed. Every condition variant that reads an
`Option`-typed snapshot field (including the GPU-derived variants and
`log_contains`) evaluates to `false` whenever that data is absent, for
every snapshot and threshold. -/
theorem absent_data_fails_closed (c : Condition) (m : Metrics)
    (logs : Option String) (h : readsAbsentData c m logs = true) :
    condition_holds c m logs = false := by
  cases c <;>
    simp only [readsAbsentData, Option.isNone_iff_eq_none, Bool.or_eq_true] at h <;>
    first
    | exact absurd h (by decide)
    | (rcases h with h | h
       · have hnone : m.gpu.bind GpuDetails.memory_utilization = none := by
           cases hg : m.gpu with
           | none => rfl
           | some g =>
             rw [hg, Option.some_bind] at h
             simp [GpuDetails.memory_utilization, h]
         simp only [condition_holds]
         rw [hnone]
         rfl
       · have hnone : m.gpu.bind GpuDetails.memory_utilization = none := by
           cases hg : m.gpu with
           | none => rfl
           | some g =>
             rw [hg, Option.some_bind] at h
             cases hu : g.memory_used_mb <;>
               simp [GpuDetails.memory_utilization, h, hu]
         simp only [condition_holds]
         rw [hnone]
         rfl)
    | simp [condition_holds, h]

theorem absent_data_fails_closed_witness :
    readsAbsentData (Condition.SnapLoopsGreater 3) mAbsent none = true ∧
    condition_holds (Condition.SnapLoopsGreater 3) mAbsent none = false :=
  ⟨by decide, absent_data_fails_closed (Condition.SnapLoopsGreater 3) mAbsent
    none (by decide)⟩

/-! ## C5 -/

/-- C5: the trigger compiler splits on `&&`, trims each segment, and
produces one condition per non-empty segment that parses, in order; empty
or unparseable segments are dropped without aborting the rest. In
particular, for a trigger whose non-empty segments all parse, the number
of conditions equals the number of non-empty segments, and the listed
concrete triggers compile as the claim states. -/
theorem trigger_compilation_segment_count
    (regexNew : String → Option CompiledRegex) (t : String)
    (hvalid : ∀ s ∈ splitOnAmpAmp t, strTrim s ≠ "" →
      (parse_condition regexNew (strTrim s)).isSome = true) :
    (parse_trigger regexNew t).length =
      ((splitOnAmpAmp t).filter (fun s => strTrim s != "")).length ∧
    parse_trigger regexNew "" = [] ∧
    parse_trigger regexNew "   " = [] ∧
    parse_trigger regexNew "cpu60" = [] ∧
    parse_trigger regexNew "cpu<>60" = [] ∧
    parse_trigger regexNew "cpu>80 && bogus && mem>90" =
      [Condition.CpuGreater 80, Condition.MemGreater 90] := by
  refine ⟨?_, rfl, rfl, rfl, rfl, rfl⟩
  rw [parse_trigger]
  refine filterMap_length_eq_filter_length _ _ _ ?_
  intro s hs
  constructor
  · intro hp
    exact hvalid s hs (by simpa using hp)
  · intro hp
    have : strTrim s = "" := by simpa using hp
    rw [this]
    rfl

theorem trigger_compilation_segment_count_witness :
    (parse_trigger (fun _ => none) "cpu>80 && mem>90").length =
      ((splitOnAmpAmp "cpu>80 && mem>90").filter
        (fun s => strTrim s != "")).length :=
  (trigger_compilation_segment_count (fun _ => none) "cpu>80 && mem>90"
    (by decide)).1

/-! ## C6 -/

/-- C6: `evaluate_rules` produces exactly one finding per rule all of
whose conditions hold (the empty condition list always holds), none for a
rule with a failing condition; each finding copies the rule's fields with
a label combining the tier glyph (low 1–4, medium 5–7, high 8–10) and the
numeric severity; and the output is sorted by descending severity with
ties in input order (stable sort). -/
theorem evaluate_rules_spec (m : Metrics)
    (rules : List (List Condition × Rule)) (logs : Option String) :
    evaluate_rules m rules logs ~
      ((rules.filter (fun pr => ruleHolds m logs pr.1)).map
        (fun pr => findingOf pr.2)) ∧
    (evaluate_rules m rules logs).Pairwise
      (fun a b => b.severity_value ≤ a.severity_value) ∧
    (∀ s : ℕ, (evaluate_rules m rules logs).filter
        (fun f => f.severity_value == s) =
      ((rules.filter (fun pr => ruleHolds m logs pr.1)).map
        (fun pr => findingOf pr.2)).filter (fun f => f.severity_value == s)) ∧
    (∀ conds, ruleHolds m logs conds = true ↔
      ∀ c ∈ conds, condition_holds c m logs = true) ∧
    (∀ r : Rule, findingOf r =
      ⟨severity_emoji r.severity ++ " " ++ toString r.severity, r.severity,
        r.message, r.solution, r.auto_fix, r.name⟩) ∧
    (∀ s : ℕ, (1 ≤ s ∧ s ≤ 4 → severity_emoji s = "ℹ️") ∧
      (5 ≤ s ∧ s ≤ 7 → severity_emoji s = "⚠️") ∧
      (8 ≤ s ∧ s ≤ 10 → severity_emoji s = "🔥")) := by
  refine ⟨List.mergeSort_perm _ _, mergeSort_sevDesc_sorted _,
    fun s => mergeSort_sevDesc_filter_sev _ s, ?_, fun r => rfl, ?_⟩
  · intro conds
    simp [ruleHolds, List.all_eq_true]
  · intro s
    refine ⟨?_, ?_, ?_⟩
    · rintro ⟨-, h2⟩
      rw [severity_emoji, if_pos h2]
    · rintro ⟨h1, h2⟩
      rw [severity_emoji, if_neg (by omega), if_pos h2]
    · rintro ⟨h1, -⟩
      rw [severity_emoji, if_neg (by omega), if_neg (by omega)]

theorem evaluate_rules_spec_witness :
    severity_emoji 6 = "⚠️" ∧ evaluate_rules mAbsent [] none = [] := by
  have h := evaluate_rules_spec mAbsent [] none
  exact ⟨(h.2.2.2.2.2 6).2.1 ⟨by decide, by decide⟩, List.Perm.eq_nil h.1⟩

/-! ## C7 -/

/-- C7: the correlator keeps exactly the first finding of each distinct
rule name (later duplicates are removed), sorts the survivors by
descending severity with a stable sort — findings of equal severity keep
the relative order they had in the retained (deduplicated, input-ordered)
list — and is idempotent. -/
theorem correlate_findings_spec (l : List Finding) :
    (∀ name : String,
      (correlate_findings l).filter (fun f => f.rule_name == name) =
        (l.filter (fun f => f.rule_name == name)).take 1) ∧
    (correlate_findings l).Pairwise
      (fun a b => b.severity_value ≤ a.severity_value) ∧
    (∀ s : ℕ,
      (correlate_findings l).filter (fun f => f.severity_value == s) =
        (retainFirstSeen [] l).filter (fun f => f.severity_value == s)) ∧
    correlate_findings (correlate_findings l) = correlate_findings l := by
  refine ⟨?_, mergeSort_sevDesc_sorted _,
    fun s => mergeSort_sevDesc_filter_sev _ s, ?_⟩
  · intro name
    have hd : (retainFirstSeen [] l).filter (fun f => f.rule_name == name) =
        (l.filter (fun f => f.rule_name == name)).take 1 := by
      rw [retainFirstSeen_filter, if_neg (List.not_mem_nil name)]
    have hperm : (correlate_findings l).filter (fun f => f.rule_name == name) ~
        (retainFirstSeen [] l).filter (fun f => f.rule_name == name) :=
      (List.mergeSort_perm _ sevDescLE).filter _
    rw [hd] at hperm
    exact perm_eq_of_length_le_one hperm
      (le_trans (List.length_take_le 1 _) (le_refl 1))
  · rw [correlate_findings]
    have hnodup : ((correlate_findings l).map Finding.rule_name).Nodup := by
      have h1 := (retainFirstSeen_names_fresh l []).1
      have hp : (correlate_findings l).map Finding.rule_name ~
          (retainFirstSeen [] l).map Finding.rule_name :=
        (List.mergeSort_perm _ sevDescLE).map _
      exact hp.nodup_iff.mpr h1
    rw [retainFirstSeen_of_nodup _ [] hnodup (fun f _ => List.not_mem_nil _)]
    exact List.mergeSort_of_sorted
      (List.sorted_mergeSort sevDescLE_trans sevDescLE_total _)

theorem correlate_findings_spec_witness :
    correlate_findings (correlate_findings []) =
      correlate_findings ([] : List Finding) :=
  (correlate_findings_spec []).2.2.2

/-! ## C8 -/

/-- C8: GPU memory utilization is the derived quantity `used/total*100`,
computed only when the total exceeds 1e-3; with the GPU record or either
memory field absent, or a total not above 1e-3 (including 0), every
`gpu_mem_util>` condition is false; with total=10240 and used=5120 the
utilization is 50, so `gpu_mem_util>40` holds and `gpu_mem_util>60` does
not. -/
theorem gpu_mem_util_spec :
    (∀ (g : GpuDetails) (used total : ℚ), g.memory_used_mb = some used →
      g.memory_total_mb = some total →
      (FP_PRECISION_THRESHOLD < total →
        g.memory_utilization = some (used / total * 100)) ∧
      (¬ FP_PRECISION_THRESHOLD < total → g.memory_utilization = none)) ∧
    (∀ (m : Metrics) (v : ℚ) (logs : Option String), m.gpu = none →
      condition_holds (.GpuMemUtilGreater v) m logs = false) ∧
    (∀ (m : Metrics) (g : GpuDetails) (v : ℚ) (logs : Option String),
      m.gpu = some g →
      (g.memory_used_mb = none ∨ g.memory_total_mb = none ∨
        ∃ total, g.memory_total_mb = some total ∧
          total ≤ FP_PRECISION_THRESHOLD) →
      condition_holds (.GpuMemUtilGreater v) m logs = false) ∧
    FP_PRECISION_THRESHOLD = 1 / 1000 ∧
    gFull.memory_utilization = some 50 ∧
    condition_holds (.GpuMemUtilGreater 40) mGpu none = true ∧
    condition_holds (.GpuMemUtilGreater 60) mGpu none = false := by
  refine ⟨?_, ?_, ?_, rfl, ?_, ?_, ?_⟩
  · intro g used total hu ht
    constructor
    · intro h
      simp [GpuDetails.memory_utilization, hu, ht, h]
    · intro h
      simp [GpuDetails.memory_utilization, hu, ht, h]
  · intro m v logs h
    simp [condition_holds, h]
  · intro m g v logs hg hcase
    have hnone : g.memory_utilization = none := by
      rcases hcase with h | h | ⟨total, ht, hle⟩
      · simp [GpuDetails.memory_utilization, h]
      · cases hu : g.memory_used_mb <;>
          simp [GpuDetails.memory_utilization, h, hu]
      · cases hu : g.memory_used_mb <;>
          simp [GpuDetails.memory_utilization, ht, hu, not_lt.mpr hle]
    simp [condition_holds, hg, hnone]
  · rw [GpuDetails.memory_utilization]
    norm_num [gFull, FP_PRECISION_THRESHOLD]
  · simp [condition_holds, mGpu, gFull, GpuDetails.memory_utilization,
      FP_PRECISION_THRESHOLD]
    norm_num
  · simp [condition_holds, mGpu, gFull, GpuDetails.memory_utilization,
      FP_PRECISION_THRESHOLD]
    norm_num

theorem gpu_mem_util_spec_witness :
    condition_holds (Condition.GpuMemUtilGreater 40) mAbsent none = false :=
  gpu_mem_util_spec.2.1 mAbsent 40 none rfl

/-! ## C9 (corrected: the `prime_offload=` payload is not validated) -/

/-- C9 counterexample: the segment `prime_offload=banana` is not dropped —
it compiles to one condition, refuting the claim that an unrecognized
payload fails to parse. -/
theorem prime_offload_payload_counterexample :
    parse_trigger (fun _ => none) "prime_offload=banana" =
      [Condition.PrimeOffloadEquals "banana"] ∧
    (parse_trigger (fun _ => none) "prime_offload=banana").length = 1 :=
  ⟨rfl, rfl⟩

/-- C9 amended: `prime_offload=` accepts any payload — the segment always
compiles to `PrimeOffloadEquals` of the trimmed, ASCII-lowercased payload;
a target that is not (case-insensitively) `enabled` or `disabled` yields a
condition that evaluates to `false` on every snapshot. -/
theorem prime_offload_any_payload
    (regexNew : String → Option CompiledRegex) (payload : String) :
    parse_condition regexNew ("prime_offload=" ++ payload) =
      some (.PrimeOffloadEquals (asciiLower (strTrim payload))) ∧
    (∀ (target : String) (m : Metrics) (logs : Option String),
      asciiLower target ≠ "enabled" → asciiLower target ≠ "disabled" →
      condition_holds (.PrimeOffloadEquals target) m logs = false) := by
  constructor
  · obtain ⟨cs⟩ := payload
    cases cs <;> rfl
  · intro target m logs h1 h2
    cases hp : m.prime_offload_enabled <;>
      simp only [condition_holds, hp, if_true, if_false, eqIgnoreAsciiCase,
        Bool.false_eq_true]
    · rw [show asciiLower "disabled" = "disabled" from rfl]
      exact beq_eq_false_iff_ne.mpr (fun h => h2 h.symm)
    · rw [show asciiLower "enabled" = "enabled" from rfl]
      exact beq_eq_false_iff_ne.mpr (fun h => h1 h.symm)

theorem prime_offload_any_payload_witness :
    condition_holds (Condition.PrimeOffloadEquals "banana") mAbsent none =
      false :=
  (prime_offload_any_payload (fun _ => none) "banana").2 "banana" mAbsent none
    (by decide) (by decide)

/-! ## C10 -/

/-- C10: the segment `process=` with empty payload is not dropped — it
compiles to a containment condition with the empty needle, which holds on
every snapshot whose process list is non-empty, so a rule whose trigger is
exactly `process=` fires on every snapshot with at least one process. -/
theorem process_empty_payload_spec
    (regexNew : String → Option CompiledRegex) :
    parse_trigger regexNew "process=" = [Condition.ProcessContains ""] ∧
    (∀ (m : Metrics) (logs : Option String), m.process_names ≠ [] →
      condition_holds (.ProcessContains "") m logs = true) ∧
    (∀ (m : Metrics) (logs : Option String) (r : Rule),
      m.process_names ≠ [] →
      evaluate_rules m [(parse_trigger regexNew "process=", r)] logs =
        [findingOf r]) := by
  have hholds : ∀ (m : Metrics) (logs : Option String), m.process_names ≠ [] →
      condition_holds (Condition.ProcessContains "") m logs = true := by
    intro m logs hne
    cases hp : m.process_names with
    | nil => exact absurd hp hne
    | cons a rest =>
      simp [condition_holds, hp, List.any_cons,
        show asciiLower "" = "" from rfl, strContainsSub_empty_pat]
  refine ⟨rfl, hholds, ?_⟩
  intro m logs r hne
  have h1 : ruleHolds m logs (parse_trigger regexNew "process=") = true := by
    rw [show parse_trigger regexNew "process=" =
      [Condition.ProcessContains ""] from rfl]
    simp [ruleHolds, hholds m logs hne]
  simp [evaluate_rules, h1, List.mergeSort]

theorem process_empty_payload_spec_witness :
    evaluate_rules mProc
      [(parse_trigger (fun _ => none) "process=", safePayloadRule)] none =
      [findingOf safePayloadRule] :=
  (process_empty_payload_spec (fun _ => none)).2.2 mProc none safePayloadRule
    (by decide)

end Why
